import Mathlib

/-!
# Verification of the RalfApp chunked-upload and analysis-job backend

Shallow embedding of the parts of `backend/app` that the specification's
claims are about:

* `websocket.py` — the websocket chunk-upload endpoint `websocket_upload_endpoint`:
  per-connection chunk buffering, progress accounting, assembly of the final
  file, cancellation.
* `routers/upload.py` — `create_upload_session`, `get_upload_session`,
  `cancel_upload_session`.
* `routers/analysis.py` — `create_analysis` (job submission with the
  pending/running conflict check).
* `tasks.py` — the Pending→Running transition performed by
  `_analyze_video_async` (lines 290–293).

Python byte strings are modelled as `List Nat`, Python ints as `Int`
(chunk indices are client-controlled and may be negative), database rows as
Lean structures, and the database as a `List` of rows.  Chunk payloads arrive
base64-encoded on the wire; decoding is injective on valid input, so the model
works directly with the decoded bytes.
-/

/-! ## Chunk buffer primitives

`chunk_data` in `websocket_upload_endpoint` is a Python dict from chunk index
to bytes; `received_chunks` is a Python set of indices.  The dict is modelled
as an association list whose first binding for a key is authoritative
(`chunk_data[idx] = content` overwrites in place), the set as a duplicate-free
list (only its size is ever read). -/

def mapLookup (m : List (Int × List Nat)) (i : Int) : Option (List Nat) :=
  match m with
  | [] => none
  | (k, v) :: rest => if k = i then some v else mapLookup rest i

def mapInsert (m : List (Int × List Nat)) (i : Int) (v : List Nat) :
    List (Int × List Nat) :=
  match m with
  | [] => [(i, v)]
  | (k, w) :: rest => if k = i then (i, v) :: rest else (k, w) :: mapInsert rest i v

def setInsert (s : List Int) (i : Int) : List Int :=
  if i ∈ s then s else i :: s

/-! ## Per-connection upload state (`websocket_upload_endpoint` locals and the
session row fields it mutates) -/

structure WsState where
  chunkData : List (Int × List Nat)
  receivedChunks : List Int
  uploadedChunks : Nat
  sessionStatus : String
  fileWritten : Option (List Nat)
deriving Repr, DecidableEq

/-- Initial per-connection state: `received_chunks = set()`, `chunk_data = {}`,
the session row is `active` and nothing has been written to storage. -/
def initWsState : WsState :=
  { chunkData := [], receivedChunks := [], uploadedChunks := 0,
    sessionStatus := "active", fileWritten := none }

/-- Inbound websocket frames handled by the message loop
(`message["type"] == "chunk"` / `"cancel"`). -/
inductive WsMsg where
  | chunk (index : Int) (data : List Nat)
  | cancel
deriving Repr, DecidableEq

/-- Outbound websocket frames sent by the message loop. -/
inductive WsReply where
  | progress (chunkIndex : Int) (uploadedChunks totalChunks : Nat)
  | uploadComplete (videoId filename : String)
  | uploadCancelled
deriving Repr, DecidableEq

/-- The file-assembly loop of `websocket_upload_endpoint`
(`for i in range(total_chunks): if i in chunk_data: await f.write(chunk_data[i])`):
indices are visited in ascending order and absent indices are skipped. -/
def assembleFile (totalChunks : Nat) (cd : List (Int × List Nat)) : List Nat :=
  (List.range totalChunks).flatMap (fun i => (mapLookup cd (Int.ofNat i)).getD [])

/-- One iteration of the message loop of `websocket_upload_endpoint`
(lines 107–189).  Returns the new state, the replies sent for this frame in
order, and whether the loop breaks.  On a chunk frame the handler buffers the
bytes, adds the index to the received set, writes the new count to the session
row, sends a progress reply, and then — if the count equals `total_chunks` —
assembles and writes the file, marks the session completed, and sends an
`upload_complete` reply carrying the video id and stored filename.  On a
cancel frame it marks the session cancelled and replies
`upload_cancelled`. -/
def processMsg (totalChunks : Nat) (videoId filename : String)
    (st : WsState) (m : WsMsg) : WsState × List WsReply × Bool :=
  match m with
  | WsMsg.chunk idx bytes =>
      let cd := mapInsert st.chunkData idx bytes
      let rc := setInsert st.receivedChunks idx
      let st1 : WsState :=
        { st with chunkData := cd, receivedChunks := rc,
                  uploadedChunks := rc.length }
      if rc.length = totalChunks then
        ({ st1 with fileWritten := some (assembleFile totalChunks cd),
                    sessionStatus := "completed" },
         [WsReply.progress idx rc.length totalChunks,
          WsReply.uploadComplete videoId filename], true)
      else
        (st1, [WsReply.progress idx rc.length totalChunks], false)
  | WsMsg.cancel =>
      ({ st with sessionStatus := "cancelled" }, [WsReply.uploadCancelled], true)

/-- The message loop itself: frames are processed in order until one of them
breaks the loop (completion or cancellation) or the input ends.  Returns the
final state and all replies sent, in order. -/
def runMsgs (totalChunks : Nat) (videoId filename : String) :
    WsState → List WsMsg → WsState × List WsReply
  | st, [] => (st, [])
  | st, m :: rest =>
      let r := processMsg totalChunks videoId filename st m
      if r.2.2 then (r.1, r.2.1)
      else
        let r2 := runMsgs totalChunks videoId filename r.1 rest
        (r2.1, r.2.1 ++ r2.2)

/-! ## Basic lemmas about the buffer primitives -/

theorem mapLookup_nil (i : Int) : mapLookup [] i = none := rfl

theorem mapLookup_cons (k : Int) (v : List Nat) (rest : List (Int × List Nat))
    (i : Int) :
    mapLookup ((k, v) :: rest) i = if k = i then some v else mapLookup rest i :=
  rfl

theorem mapInsert_nil (i : Int) (v : List Nat) : mapInsert [] i v = [(i, v)] :=
  rfl

theorem mapInsert_cons (k : Int) (w : List Nat) (rest : List (Int × List Nat))
    (i : Int) (v : List Nat) :
    mapInsert ((k, w) :: rest) i v
      = if k = i then (i, v) :: rest else (k, w) :: mapInsert rest i v := rfl

theorem mapLookup_mapInsert (m : List (Int × List Nat)) (i j : Int)
    (v : List Nat) :
    mapLookup (mapInsert m i v) j = if j = i then some v else mapLookup m j := by
  induction m with
  | nil =>
      simp only [mapInsert_nil, mapLookup_cons, mapLookup_nil]
      split_ifs <;> first | rfl | (exfalso; omega)
  | cons kv rest ih =>
      obtain ⟨k, w⟩ := kv
      rw [mapInsert_cons]
      by_cases hk : k = i
      · subst hk
        rw [if_pos rfl, mapLookup_cons, mapLookup_cons]
        split_ifs <;> first | rfl | (exfalso; omega)
      · rw [if_neg hk, mapLookup_cons, mapLookup_cons, ih]
        split_ifs <;> first | rfl | (exfalso; omega)

theorem mapInsert_lookup_self (m : List (Int × List Nat)) (i : Int)
    (v : List Nat) (h : mapLookup m i = some v) : mapInsert m i v = m := by
  induction m with
  | nil => simp [mapLookup] at h
  | cons kv rest ih =>
      obtain ⟨k, w⟩ := kv
      simp only [mapLookup] at h
      simp only [mapInsert]
      by_cases hk : k = i
      · subst hk
        rw [if_pos rfl] at h ⊢
        injection h with h
        rw [h]
      · rw [if_neg hk] at h ⊢
        rw [ih h]

theorem setInsert_mem (s : List Int) (i : Int) (h : i ∈ s) :
    setInsert s i = s := by
  simp [setInsert, h]

theorem setInsert_not_mem (s : List Int) (i : Int) (h : i ∉ s) :
    setInsert s i = i :: s := by
  simp [setInsert, h]

theorem mapLookup_foldl_insert (f : Int → List Nat) :
    ∀ (l : List Int) (m : List (Int × List Nat)) (j : Int),
      mapLookup (l.foldl (fun acc i => mapInsert acc i (f i)) m) j
        = if j ∈ l then some (f j) else mapLookup m j := by
  intro l
  induction l with
  | nil => intro m j; simp
  | cons i rest ih =>
      intro m j
      simp only [List.foldl_cons, ih, mapLookup_mapInsert]
      by_cases hr : j ∈ rest
      · rw [if_pos hr, if_pos (List.mem_cons_of_mem _ hr)]
      · rw [if_neg hr]
        by_cases hi : j = i
        · subst hi
          rw [if_pos rfl, if_pos (List.mem_cons_self _ _)]
        · rw [if_neg hi, if_neg (by simp [hi, hr])]

/-! ## Reduction lemmas for the message loop -/

theorem runMsgs_nil (total : Nat) (vid fn : String) (st : WsState) :
    runMsgs total vid fn st [] = (st, []) := rfl

theorem runMsgs_cons (total : Nat) (vid fn : String) (st : WsState)
    (m : WsMsg) (rest : List WsMsg) :
    runMsgs total vid fn st (m :: rest)
      = (let r := processMsg total vid fn st m
         if r.2.2 then (r.1, r.2.1)
         else
           let r2 := runMsgs total vid fn r.1 rest
           (r2.1, r.2.1 ++ r2.2)) := rfl

/-- Processing a fresh (not previously received) chunk index whose receipt
brings the count up to `total` takes the completion branch: the file is
assembled and written, the session is marked completed, a progress reply is
followed by `upload_complete`, and the loop breaks. -/
theorem processMsg_chunk_fresh_complete (total : Nat) (vid fn : String)
    (st : WsState) (i : Int) (b : List Nat)
    (hmem : i ∉ st.receivedChunks)
    (hlen : st.receivedChunks.length + 1 = total) :
    processMsg total vid fn st (WsMsg.chunk i b)
      = ({ chunkData := mapInsert st.chunkData i b,
           receivedChunks := i :: st.receivedChunks,
           uploadedChunks := st.receivedChunks.length + 1,
           sessionStatus := "completed",
           fileWritten := some (assembleFile total (mapInsert st.chunkData i b)) },
         [WsReply.progress i total total, WsReply.uploadComplete vid fn],
         true) := by
  simp only [processMsg, setInsert_not_mem _ _ hmem, List.length_cons, hlen]
  simp

/-- Processing a fresh chunk index that does not yet complete the upload:
the chunk is buffered, the count grows by one, one progress reply is sent and
the loop continues. -/
theorem processMsg_chunk_fresh_nonfinal (total : Nat) (vid fn : String)
    (st : WsState) (i : Int) (b : List Nat)
    (hmem : i ∉ st.receivedChunks)
    (hlen : st.receivedChunks.length + 1 ≠ total) :
    processMsg total vid fn st (WsMsg.chunk i b)
      = ({ st with
           chunkData := mapInsert st.chunkData i b,
           receivedChunks := i :: st.receivedChunks,
           uploadedChunks := st.receivedChunks.length + 1 },
         [WsReply.progress i (st.receivedChunks.length + 1) total],
         false) := by
  simp only [processMsg, setInsert_not_mem _ _ hmem, List.length_cons]
  simp [hlen]

/-- Running the loop on a non-empty list of chunk frames with pairwise
distinct, previously unseen indices, whose count exactly fills the session:
the loop ends in the completion branch, with the file assembled from the
buffer obtained by inserting every submitted chunk. -/
theorem runChunks_complete (total : Nat) (vid fn : String) (f : Int → List Nat) :
    ∀ (l : List Int) (st : WsState), l ≠ [] → l.Nodup →
      (∀ j ∈ l, j ∉ st.receivedChunks) →
      st.receivedChunks.length + l.length = total →
      ((runMsgs total vid fn st (l.map fun i => WsMsg.chunk i (f i))).1.fileWritten
          = some (assembleFile total
              (l.foldl (fun acc i => mapInsert acc i (f i)) st.chunkData))
        ∧ (runMsgs total vid fn st
            (l.map fun i => WsMsg.chunk i (f i))).1.sessionStatus
            = "completed") := by
  intro l
  induction l with
  | nil => intro st h _ _ _; exact absurd rfl h
  | cons i rest ih =>
      intro st _ hnd hfresh hlen
      have hmem : i ∉ st.receivedChunks := hfresh i (List.mem_cons_self i rest)
      cases rest with
      | nil =>
          have hlen1 : st.receivedChunks.length + 1 = total := by
            simp only [List.length_cons, List.length_nil] at hlen
            omega
          rw [List.map_cons, List.map_nil, runMsgs_cons,
            processMsg_chunk_fresh_complete total vid fn st i (f i) hmem hlen1]
          simp
      | cons r rs =>
          have hlen1 : st.receivedChunks.length + 1 ≠ total := by
            simp only [List.length_cons] at hlen
            omega
          rw [List.map_cons, runMsgs_cons,
            processMsg_chunk_fresh_nonfinal total vid fn st i (f i) hmem hlen1]
          simp only []
          set st1 : WsState :=
            { st with
              chunkData := mapInsert st.chunkData i (f i),
              receivedChunks := i :: st.receivedChunks,
              uploadedChunks := st.receivedChunks.length + 1 } with hst1
          have hnd' : (r :: rs).Nodup := (List.nodup_cons.mp hnd).2
          have hfresh' : ∀ j ∈ r :: rs, j ∉ st1.receivedChunks := by
            intro j hj
            have hji : j ≠ i := by
              intro hji
              exact (List.nodup_cons.mp hnd).1 (hji ▸ hj)
            have : j ∉ st.receivedChunks :=
              hfresh j (List.mem_cons_of_mem _ hj)
            simp [hst1, List.mem_cons, hji, this]
          have hlen' : st1.receivedChunks.length + (r :: rs).length = total := by
            simp only [hst1, List.length_cons] at *
            omega
          obtain ⟨h1, h2⟩ := ih st1 (List.cons_ne_nil r rs) hnd' hfresh' hlen'
          refine ⟨?_, ?_⟩
          · simpa [List.foldl_cons, hst1] using h1
          · simpa [List.foldl_cons, hst1] using h2

/-! ## C1 — order-independent assembly -/

/-- **C1.** For every upload session and every permutation of the distinct
in-range chunk indices `0, …, total_chunks - 1` submitted to it, once the
received count equals `total_chunks` the assembled file written to storage
equals the concatenation of the buffered chunk bytes in ascending index
order, independent of the order in which the chunks arrived: running the
message loop on the chunk frames in any permuted order writes exactly
`f 0 ++ f 1 ++ ⋯ ++ f (total-1)`, where `f i` is the payload submitted for
index `i`. -/
theorem upload_assembly_order_independent (total : Nat) (vid fn : String)
    (f : Int → List Nat) (p : List Int)
    (hperm : p.Perm ((List.range total).map Int.ofNat)) (hpos : 0 < total) :
    (runMsgs total vid fn initWsState
        (p.map fun i => WsMsg.chunk i (f i))).1.fileWritten
      = some ((List.range total).flatMap fun i => f (Int.ofNat i)) := by
  have hlen : p.length = total := by
    have h := hperm.length_eq
    simpa using h
  have hne : p ≠ [] := by
    intro h
    rw [h] at hlen
    simp at hlen
    omega
  have hnd : p.Nodup := by
    have h : ((List.range total).map Int.ofNat).Nodup :=
      (List.nodup_range total).map (fun a b hab => Int.ofNat.inj hab)
    exact (hperm.nodup_iff).mpr h
  have hfresh : ∀ j ∈ p, j ∉ initWsState.receivedChunks := by
    intro j _ h
    simp [initWsState] at h
  have hlen0 : initWsState.receivedChunks.length + p.length = total := by
    simp [initWsState, hlen]
  obtain ⟨hfile, _⟩ :=
    runChunks_complete total vid fn f p initWsState hne hnd hfresh hlen0
  rw [hfile]
  congr 1
  unfold assembleFile
  rw [List.flatMap_def, List.flatMap_def]
  congr 1
  apply List.map_congr_left
  intro a ha
  have hmem : Int.ofNat a ∈ p := by
    rw [hperm.mem_iff]
    exact List.mem_map.mpr ⟨a, ha, rfl⟩
  rw [show initWsState.chunkData = [] from rfl, mapLookup_foldl_insert,
    if_pos hmem]
  rfl

/-- Concrete instance of C1: a three-chunk session receiving the chunks in
the order 2, 0, 1 still assembles them in ascending index order. -/
theorem upload_assembly_order_independent_witness :
    ([2, 0, 1] : List Int).Perm ((List.range 3).map Int.ofNat)
    ∧ (runMsgs 3 "vid" "stored.mp4" initWsState
          (([2, 0, 1] : List Int).map fun i =>
            WsMsg.chunk i [i.toNat])).1.fileWritten
        = some ((List.range 3).flatMap fun i => [(Int.ofNat i).toNat]) :=
  ⟨by decide,
   upload_assembly_order_independent 3 "vid" "stored.mp4"
     (fun i => [i.toNat]) [2, 0, 1] (by decide) (by decide)⟩

/-! ## C2 — duplicate chunk delivery is idempotent -/

/-- **C2.** Re-submitting a chunk frame for an index the session has already
received is idempotent with respect to progress: the received set (and so the
count written to the session row) does not grow, the newly sent bytes
overwrite the previously buffered bytes for that index, and when the
duplicate carries the same bytes the buffer — and hence any file assembled
from it — is unchanged. -/
theorem duplicate_chunk_idempotent (total : Nat) (vid fn : String)
    (st : WsState) (i : Int) (b : List Nat)
    (hmem : i ∈ st.receivedChunks) :
    (processMsg total vid fn st (WsMsg.chunk i b)).1.receivedChunks
        = st.receivedChunks
    ∧ (processMsg total vid fn st (WsMsg.chunk i b)).1.uploadedChunks
        = st.receivedChunks.length
    ∧ mapLookup (processMsg total vid fn st (WsMsg.chunk i b)).1.chunkData i
        = some b
    ∧ (mapLookup st.chunkData i = some b →
        (processMsg total vid fn st (WsMsg.chunk i b)).1.chunkData
          = st.chunkData)
    ∧ (mapLookup st.chunkData i = some b →
        assembleFile total
            (processMsg total vid fn st (WsMsg.chunk i b)).1.chunkData
          = assembleFile total st.chunkData) := by
  simp only [processMsg, setInsert_mem _ _ hmem]
  split_ifs <;>
    exact ⟨rfl, rfl,
      by rw [mapLookup_mapInsert]; simp,
      fun h => by simp [mapInsert_lookup_self _ _ _ h],
      fun h => by simp [mapInsert_lookup_self _ _ _ h]⟩

/-- Concrete instance of C2: in a three-chunk session that has already
received chunk 0 with bytes `[5]`, re-sending chunk 0 with the same bytes
leaves the received set, the stored count, the buffer, and the assembled
bytes unchanged. -/
theorem duplicate_chunk_idempotent_witness :
    (0 : Int) ∈
      (⟨[(0, [5])], [0], 1, "active", none⟩ : WsState).receivedChunks
    ∧ ((processMsg 3 "vid" "stored.mp4"
            ⟨[(0, [5])], [0], 1, "active", none⟩
            (WsMsg.chunk 0 [5])).1.receivedChunks = [0]
      ∧ (processMsg 3 "vid" "stored.mp4"
            ⟨[(0, [5])], [0], 1, "active", none⟩
            (WsMsg.chunk 0 [5])).1.uploadedChunks = 1
      ∧ mapLookup (processMsg 3 "vid" "stored.mp4"
            ⟨[(0, [5])], [0], 1, "active", none⟩
            (WsMsg.chunk 0 [5])).1.chunkData 0 = some [5]
      ∧ (mapLookup [(0, [5])] 0 = some [5] →
          (processMsg 3 "vid" "stored.mp4"
              ⟨[(0, [5])], [0], 1, "active", none⟩
              (WsMsg.chunk 0 [5])).1.chunkData = [(0, [5])])
      ∧ (mapLookup [(0, [5])] 0 = some [5] →
          assembleFile 3 (processMsg 3 "vid" "stored.mp4"
              ⟨[(0, [5])], [0], 1, "active", none⟩
              (WsMsg.chunk 0 [5])).1.chunkData
            = assembleFile 3 [(0, [5])])) :=
  ⟨by decide,
   duplicate_chunk_idempotent 3 "vid" "stored.mp4"
     ⟨[(0, [5])], [0], 1, "active", none⟩ 0 [5] (by decide)⟩

/-! ## C5 — there is no out-of-range check on chunk indices -/

/-- **C5 evidence (code bug).** The chunk-handling branch of
`websocket_upload_endpoint` performs no range check on `chunk_index`.  In a
two-chunk session, sending index `2` (outside `[0, 2)`) buffers the bytes,
adds `2` to the received set and counts it toward completion; a following
chunk `0` then makes the count reach `total_chunks`, so the session is marked
completed and the file is assembled with chunk `1` missing: the bytes written
are `[1]`, not a two-chunk file.  The spec instead requires an `OutOfRange`
failure with no state change. -/
theorem out_of_range_chunk_accepted :
    (runMsgs 2 "vid" "stored.mp4" initWsState
        [WsMsg.chunk 2 [5], WsMsg.chunk 0 [1]]).1
      = { chunkData := [(2, [5]), (0, [1])], receivedChunks := [0, 2],
          uploadedChunks := 2, sessionStatus := "completed",
          fileWritten := some [1] } := by
  decide

/-! ## C9 — the final chunk gets a progress reply and then upload_complete -/

/-- **C9 counterexample.** In a one-chunk session the final (only) chunk is
answered with a `progress` reply *followed by* `upload_complete` — the
`upload_complete` message is not sent *instead of* a progress reply, as the
claim states: the code sends the progress frame unconditionally before the
completion check. -/
theorem final_chunk_progress_also_sent :
    (runMsgs 1 "vid1" "file1.mp4" initWsState [WsMsg.chunk 0 [7]]).2
      = [WsReply.progress 0 1 1,
         WsReply.uploadComplete "vid1" "file1.mp4"] := by
  decide

/-- **C9 amended.** For a fresh chunk index: if its receipt makes the count
reach `total_chunks`, the replies sent for that frame are a `progress` reply
followed by an `upload_complete` reply carrying the video id and filename
(in addition to, not instead of, the progress reply); for every non-final
chunk the single reply is a `progress` message. -/
theorem final_chunk_reply_shape (total : Nat) (vid fn : String) (st : WsState)
    (i : Int) (b : List Nat) (hmem : i ∉ st.receivedChunks) :
    (st.receivedChunks.length + 1 = total →
      (processMsg total vid fn st (WsMsg.chunk i b)).2.1
        = [WsReply.progress i total total, WsReply.uploadComplete vid fn])
    ∧ (st.receivedChunks.length + 1 ≠ total →
      (processMsg total vid fn st (WsMsg.chunk i b)).2.1
        = [WsReply.progress i (st.receivedChunks.length + 1) total]) := by
  constructor
  · intro h
    rw [processMsg_chunk_fresh_complete total vid fn st i b hmem h]
  · intro h
    rw [processMsg_chunk_fresh_nonfinal total vid fn st i b hmem h]

/-- Concrete instance of the amended C9: in a one-chunk session the final
chunk is answered with a progress reply followed by `upload_complete`. -/
theorem final_chunk_reply_shape_witness :
    (0 : Int) ∉ initWsState.receivedChunks
    ∧ (processMsg 1 "vid1" "file1.mp4" initWsState (WsMsg.chunk 0 [7])).2.1
        = [WsReply.progress 0 1 1,
           WsReply.uploadComplete "vid1" "file1.mp4"] :=
  ⟨by decide,
   (final_chunk_reply_shape 1 "vid1" "file1.mp4" initWsState 0 [7]
     (by decide)).1 rfl⟩

/-! ## Upload-session HTTP endpoints (`routers/upload.py`)

The `upload_sessions` table row (`models.py`, class `UploadSession`), with the
fields the claims are about.  Timestamps are seconds as integers; user ids and
tokens are abstract. -/

structure SessionRec where
  userId : Nat
  sessionToken : String
  filename : String
  fileSize : Int
  chunkSize : Int
  totalChunks : Int
  uploadedChunks : Nat
  status : String
  expiresAt : Int
deriving Repr, DecidableEq

/-- An HTTP error response (`HTTPException(status_code, detail)`). -/
structure HttpError where
  code : Nat
  detail : String
deriving Repr, DecidableEq

/-- The row filter used by `get_upload_session` and `cancel_upload_session`:
`UploadSession.session_token == session_token, UploadSession.user_id ==
current_user_id`. -/
def matchesOwner (token : String) (uid : Nat) (s : SessionRec) : Bool :=
  s.sessionToken == token && s.userId == uid

/-- `POST /session` (`create_upload_session`, `routers/upload.py` lines
16–43).  The handler performs no validation of the sizes: it computes
`total_chunks = (file_size + chunk_size - 1) // chunk_size` (Python floor
division, `Int.fdiv` here; `chunk_size = 0` raises an unhandled
`ZeroDivisionError` and no row is created), then persists the row, whose
`status` column defaults to `"active"` (`models.py`) and whose expiry is
24 hours (86400 s) from now. -/
def create_upload_session (uid : Nat) (filename : String)
    (fileSize chunkSize : Int) (now : Int) (token : String) :
    Except String SessionRec :=
  if chunkSize = 0 then Except.error "ZeroDivisionError"
  else
    Except.ok
      { userId := uid, sessionToken := token, filename := filename,
        fileSize := fileSize, chunkSize := chunkSize,
        totalChunks := (fileSize + chunkSize - 1).fdiv chunkSize,
        uploadedChunks := 0, status := "active", expiresAt := now + 86400 }

/-- `GET /session/{session_token}` (`get_upload_session`, lines 45–71):
selects the row matching both token and calling user, 404 if none, 400 if
past expiry; no row is mutated in any branch. -/
def get_upload_session (store : List SessionRec) (token : String) (uid : Nat)
    (now : Int) : Except HttpError SessionRec :=
  match store.find? (matchesOwner token uid) with
  | none => Except.error ⟨404, "Upload session not found"⟩
  | some s =>
      if s.expiresAt < now then
        Except.error ⟨400, "Upload session expired"⟩
      else Except.ok s

/-- In-place mutation of the first row matched by the ORM query, as
`session.status = "cancelled"; await db.commit()` does. -/
def updateFirst (store : List SessionRec) (p : SessionRec → Bool)
    (f : SessionRec → SessionRec) : List SessionRec :=
  match store with
  | [] => []
  | s :: rest => if p s then f s :: rest else s :: updateFirst rest p f

/-- `DELETE /session/{session_token}` (`cancel_upload_session`, lines
123–146): selects the row matching both token and calling user, 404 if
none; otherwise sets `status = "cancelled"` unconditionally — there is no
check of the current status — and returns success.  Returns the response and
the store after the request. -/
def cancel_upload_session (store : List SessionRec) (token : String)
    (uid : Nat) : Except HttpError String × List SessionRec :=
  match store.find? (matchesOwner token uid) with
  | none => (Except.error ⟨404, "Upload session not found"⟩, store)
  | some _ =>
      (Except.ok "Upload session cancelled",
       updateFirst store (matchesOwner token uid)
         (fun s => { s with status := "cancelled" }))

/-- The session gate run by `websocket_upload_endpoint` before entering the
message loop (`websocket.py` lines 59–78): unknown token, then expiry, then
status are checked in order; every rejection only sends an error frame and
returns — the stored row is never written.  The second component is the
stored row after the gate. -/
inductive WsGateResult where
  | invalidToken
  | expired
  | notActive
  | proceed
deriving Repr, DecidableEq

def wsSessionGate (sess : Option SessionRec) (now : Int) :
    WsGateResult × Option SessionRec :=
  match sess with
  | none => (WsGateResult.invalidToken, none)
  | some s =>
      if s.expiresAt < now then (WsGateResult.expired, some s)
      else if s.status ≠ "active" then (WsGateResult.notActive, some s)
      else (WsGateResult.proceed, some s)

/-! ## C6 — expiry rejects but never transitions the stored status -/

/-- **C6 counterexample.** A session whose expiry (100) has passed (now =
200) is rejected by the websocket gate with the expired error, but the
stored status remains `"active"`: no Active→Expired transition is performed
anywhere — contrary to the claim that the rejection transitions the session
to Expired as a side effect. -/
theorem expired_session_status_unchanged :
    wsSessionGate (some ⟨1, "tok", "a.mp4", 10, 5, 2, 0, "active", 100⟩) 200
      = (WsGateResult.expired,
         some ⟨1, "tok", "a.mp4", 10, 5, 2, 0, "active", 100⟩) := by
  decide

/-- **C6 amended.** A chunk-accepting attempt on a session past its expiry
is rejected — the websocket gate answers `expired` and the HTTP query
answers 400 "Upload session expired" — but no status transition occurs: the
stored row is returned unchanged (still `Active`) by both code paths, so
there is no Active→Expired side effect at all. -/
theorem expired_reject_no_transition (store : List SessionRec)
    (token : String) (uid : Nat) (s : SessionRec) (now : Int)
    (hexp : s.expiresAt < now)
    (hfind : store.find? (matchesOwner token uid) = some s) :
    wsSessionGate (some s) now = (WsGateResult.expired, some s)
    ∧ get_upload_session store token uid now
        = Except.error ⟨400, "Upload session expired"⟩ := by
  constructor
  · simp [wsSessionGate, hexp]
  · simp [get_upload_session, hfind, hexp]

/-- Concrete instance of the amended C6. -/
theorem expired_reject_no_transition_witness :
    ((⟨1, "tok", "a.mp4", 10, 5, 2, 0, "active", 100⟩ : SessionRec).expiresAt
        < 200
      ∧ ([⟨1, "tok", "a.mp4", 10, 5, 2, 0, "active", 100⟩] :
          List SessionRec).find? (matchesOwner "tok" 1)
        = some ⟨1, "tok", "a.mp4", 10, 5, 2, 0, "active", 100⟩)
    ∧ (wsSessionGate (some ⟨1, "tok", "a.mp4", 10, 5, 2, 0, "active", 100⟩) 200
        = (WsGateResult.expired,
           some ⟨1, "tok", "a.mp4", 10, 5, 2, 0, "active", 100⟩)
      ∧ get_upload_session [⟨1, "tok", "a.mp4", 10, 5, 2, 0, "active", 100⟩]
          "tok" 1 200 = Except.error ⟨400, "Upload session expired"⟩) :=
  ⟨⟨by decide, by decide⟩,
   expired_reject_no_transition
     [⟨1, "tok", "a.mp4", 10, 5, 2, 0, "active", 100⟩] "tok" 1
     ⟨1, "tok", "a.mp4", 10, 5, 2, 0, "active", 100⟩ 200
     (by decide) (by decide)⟩

/-! ## C7 — session opening performs no size validation -/

/-- **C7 counterexample.** `create_upload_session` performs no positivity
validation: with `total_size = 0` and `chunk_size = 1` a session is created
(state Active, `total_chunks = 0`) instead of failing with
`InvalidRequest`. -/
theorem zero_size_session_created :
    create_upload_session 1 "a.mp4" 0 1 0 "tok"
      = Except.ok ⟨1, "tok", "a.mp4", 0, 1, 0, 0, "active", 86400⟩ := rfl

/-- **C7 amended.** Opening a session does not validate the sizes (any
`total_size`, including 0 and negatives, is accepted; `chunk_size = 0`
raises an unhandled `ZeroDivisionError` instead of a clean `InvalidRequest`).
For strictly positive sizes the created session is Active with
`uploaded_chunks = 0`, expiry 24 hours (86400 s) from creation, and
`total_chunks` equal to the ceiling of `total_size / chunk_size`,
characterized by `(total_chunks - 1) * chunk_size < total_size ≤
total_chunks * chunk_size`. -/
theorem create_session_positive (uid : Nat) (fn token : String)
    (fileSize chunkSize now : Int) (hf : 0 < fileSize) (hc : 0 < chunkSize) :
    ∃ s : SessionRec,
      create_upload_session uid fn fileSize chunkSize now token = Except.ok s
      ∧ s.status = "active"
      ∧ s.expiresAt = now + 86400
      ∧ s.uploadedChunks = 0
      ∧ fileSize ≤ s.totalChunks * chunkSize
      ∧ (s.totalChunks - 1) * chunkSize < fileSize := by
  have hc0 : chunkSize ≠ 0 := ne_of_gt hc
  refine ⟨{ userId := uid, sessionToken := token, filename := fn,
            fileSize := fileSize, chunkSize := chunkSize,
            totalChunks := (fileSize + chunkSize - 1).fdiv chunkSize,
            uploadedChunks := 0, status := "active",
            expiresAt := now + 86400 }, ?_, rfl, rfl, rfl, ?_, ?_⟩
  · simp [create_upload_session, hc0]
  · show fileSize ≤ (fileSize + chunkSize - 1).fdiv chunkSize * chunkSize
    rw [Int.fdiv_eq_ediv _ (le_of_lt hc)]
    have hkey := Int.ediv_add_emod (fileSize + chunkSize - 1) chunkSize
    have h1 : (fileSize + chunkSize - 1) % chunkSize + 1 ≤ chunkSize :=
      Int.lt_iff_add_one_le.mp (Int.emod_lt_of_pos _ hc)
    have hcomm : (fileSize + chunkSize - 1) / chunkSize * chunkSize
        = chunkSize * ((fileSize + chunkSize - 1) / chunkSize) :=
      Int.mul_comm _ _
    rw [hcomm]
    linarith
  · show ((fileSize + chunkSize - 1).fdiv chunkSize - 1) * chunkSize < fileSize
    rw [Int.fdiv_eq_ediv _ (le_of_lt hc)]
    have hkey := Int.ediv_add_emod (fileSize + chunkSize - 1) chunkSize
    have h0 : 0 ≤ (fileSize + chunkSize - 1) % chunkSize :=
      Int.emod_nonneg _ hc0
    have hexpand : ((fileSize + chunkSize - 1) / chunkSize - 1) * chunkSize
        = chunkSize * ((fileSize + chunkSize - 1) / chunkSize) - chunkSize := by
      ring
    rw [hexpand]
    linarith

/-- Concrete instance of the amended C7, on the spec's own example: a
10,000,000-byte file with 1,048,576-byte chunks yields an Active session
whose `total_chunks` satisfies the ceiling characterization (it is 10). -/
theorem create_session_positive_witness :
    (0 : Int) < 10000000 ∧ (0 : Int) < 1048576
    ∧ ∃ s : SessionRec,
        create_upload_session 1 "big.mp4" 10000000 1048576 0 "tok"
          = Except.ok s
        ∧ s.status = "active"
        ∧ s.expiresAt = 0 + 86400
        ∧ s.uploadedChunks = 0
        ∧ (10000000 : Int) ≤ s.totalChunks * 1048576
        ∧ (s.totalChunks - 1) * 1048576 < (10000000 : Int) :=
  ⟨by norm_num, by norm_num,
   create_session_positive 1 "big.mp4" "tok" 10000000 1048576 0
     (by norm_num) (by norm_num)⟩

/-! ## C8 — cancellation is unconditional; terminal states are not protected -/

/-- **C8 counterexample.** Cancelling a session that is already in the
terminal state `"completed"` succeeds and rewrites its status to
`"cancelled"`: the HTTP cancel endpoint checks only ownership, never the
current status, so a terminal session is resurrected into Cancelled instead
of the request failing with `InvalidState` — monotonicity of status
transitions is not enforced. -/
theorem cancel_completed_session :
    cancel_upload_session
        [⟨1, "tok", "a.mp4", 10, 5, 2, 2, "completed", 1000⟩] "tok" 1
      = (Except.ok "Upload session cancelled",
         [⟨1, "tok", "a.mp4", 10, 5, 2, 2, "cancelled", 1000⟩]) := rfl

theorem find?_updateFirst (p : SessionRec → Bool) (f : SessionRec → SessionRec) :
    ∀ (store : List SessionRec) (s : SessionRec),
      store.find? p = some s → p (f s) = true →
      (updateFirst store p f).find? p = some (f s) := by
  intro store
  induction store with
  | nil => intro s h _; simp at h
  | cons a rest ih =>
      intro s h hpf
      by_cases hpa : p a
      · rw [List.find?_cons_of_pos _ hpa] at h
        injection h with h
        subst h
        simp only [updateFirst, if_pos hpa]
        exact List.find?_cons_of_pos _ hpf
      · rw [List.find?_cons_of_neg _ hpa] at h
        simp only [updateFirst, if_neg hpa]
        rw [List.find?_cons_of_neg _ hpa]
        exact ih s h hpf

/-- **C8 amended.** Cancelling by token succeeds for *any* session owned by
the caller regardless of its current status — Active, Completed, Cancelled
or Expired alike — unconditionally setting the stored status to Cancelled;
no `InvalidState` rejection exists and no terminal state is protected. -/
theorem cancel_unconditional (store : List SessionRec) (token : String)
    (uid : Nat) (s : SessionRec)
    (hfind : store.find? (matchesOwner token uid) = some s) :
    (cancel_upload_session store token uid).1
        = Except.ok "Upload session cancelled"
    ∧ (cancel_upload_session store token uid).2.find? (matchesOwner token uid)
        = some { s with status := "cancelled" } := by
  have hps : matchesOwner token uid s = true := List.find?_some hfind
  have hpf : matchesOwner token uid { s with status := "cancelled" } = true := by
    simpa [matchesOwner] using hps
  constructor
  · simp [cancel_upload_session, hfind]
  · simp only [cancel_upload_session, hfind]
    exact find?_updateFirst _ _ store s hfind hpf

/-- Concrete instance of the amended C8: a completed session owned by the
caller is cancelled anyway. -/
theorem cancel_unconditional_witness :
    ([⟨1, "tok", "a.mp4", 10, 5, 2, 2, "completed", 1000⟩] :
        List SessionRec).find? (matchesOwner "tok" 1)
      = some ⟨1, "tok", "a.mp4", 10, 5, 2, 2, "completed", 1000⟩
    ∧ ((cancel_upload_session
          [⟨1, "tok", "a.mp4", 10, 5, 2, 2, "completed", 1000⟩] "tok" 1).1
        = Except.ok "Upload session cancelled"
      ∧ (cancel_upload_session
          [⟨1, "tok", "a.mp4", 10, 5, 2, 2, "completed", 1000⟩] "tok" 1).2.find?
            (matchesOwner "tok" 1)
        = some ⟨1, "tok", "a.mp4", 10, 5, 2, 2, "cancelled", 1000⟩) :=
  ⟨by decide,
   cancel_unconditional [⟨1, "tok", "a.mp4", 10, 5, 2, 2, "completed", 1000⟩]
     "tok" 1 ⟨1, "tok", "a.mp4", 10, 5, 2, 2, "completed", 1000⟩ (by decide)⟩

/-! ## C10 — ownership scoping of the session HTTP interface -/

/-- **C10.** For every authenticated caller, querying or cancelling an
upload session by token answers 404 Not Found whenever no session in the
store is *both* named by that token *and* owned by that caller — in
particular when a session with that token exists but belongs to a different
user — and the store is returned unchanged, so the other user's session is
untouched. -/
theorem session_ownership_scoped (store : List SessionRec) (token : String)
    (uid : Nat) (now : Int)
    (h : ∀ s ∈ store, ¬ matchesOwner token uid s) :
    get_upload_session store token uid now
        = Except.error ⟨404, "Upload session not found"⟩
    ∧ cancel_upload_session store token uid
        = (Except.error ⟨404, "Upload session not found"⟩, store) := by
  have hnone : store.find? (matchesOwner token uid) = none :=
    List.find?_eq_none.mpr h
  constructor
  · simp [get_upload_session, hnone]
  · simp [cancel_upload_session, hnone]

/-- Concrete instance of C10: the store holds a session with token `"tok"`
owned by user 2; user 1 querying or cancelling token `"tok"` gets 404 and
user 2's session is left unchanged. -/
theorem session_ownership_scoped_witness :
    (∀ s ∈ ([⟨2, "tok", "a.mp4", 10, 5, 2, 0, "active", 1000⟩] :
        List SessionRec), ¬ matchesOwner "tok" 1 s)
    ∧ (get_upload_session [⟨2, "tok", "a.mp4", 10, 5, 2, 0, "active", 1000⟩]
          "tok" 1 0
        = Except.error ⟨404, "Upload session not found"⟩
      ∧ cancel_upload_session
          [⟨2, "tok", "a.mp4", 10, 5, 2, 0, "active", 1000⟩] "tok" 1
        = (Except.error ⟨404, "Upload session not found"⟩,
           [⟨2, "tok", "a.mp4", 10, 5, 2, 0, "active", 1000⟩])) :=
  ⟨by decide,
   session_ownership_scoped [⟨2, "tok", "a.mp4", 10, 5, 2, 0, "active", 1000⟩]
     "tok" 1 0 (by decide)⟩

/-! ## Analysis jobs (`routers/analysis.py`, `tasks.py`)

The `videos` and `video_analysis` table rows (`models.py`), with the fields
the claims are about. -/

structure VideoRec where
  id : Nat
  userId : Nat
  uploadStatus : String
deriving Repr, DecidableEq

structure AnalysisRec where
  id : Nat
  videoId : Nat
  analysisType : String
  status : String
  workerId : String
deriving Repr, DecidableEq

/-- The row filter of `create_analysis` for the subject video:
`Video.id == video_id, Video.user_id == current_user_id`. -/
def videoOwnerMatch (videoId uid : Nat) (v : VideoRec) : Bool :=
  v.id == videoId && v.userId == uid

/-- The in-flight duplicate filter of `create_analysis`:
`VideoAnalysis.video_id == video_id, VideoAnalysis.analysis_type ==
analysis_type, VideoAnalysis.status.in_(["pending", "running"])`. -/
def inflightMatch (videoId : Nat) (atype : String) (a : AnalysisRec) : Bool :=
  a.videoId == videoId && a.analysisType == atype
    && (a.status == "pending" || a.status == "running")

/-- `POST /{video_id}` (`create_analysis`, `routers/analysis.py` lines
13–72): 404 if the video is not found for this user; 400 if its upload is
not completed; 400 — not 409 — if an analysis of the same type is already
pending or running; otherwise a new pending analysis row is appended and
the job is queued.  Returns the response and the analysis table after the
request. -/
def create_analysis (videos : List VideoRec) (analyses : List AnalysisRec)
    (videoId : Nat) (atype : String) (uid : Nat) (newId : Nat) :
    Except HttpError AnalysisRec × List AnalysisRec :=
  match videos.find? (videoOwnerMatch videoId uid) with
  | none => (Except.error ⟨404, "Video not found"⟩, analyses)
  | some v =>
      if v.uploadStatus ≠ "completed" then
        (Except.error ⟨400, "Video upload is not completed"⟩, analyses)
      else
        match analyses.find? (inflightMatch videoId atype) with
        | some _ =>
            (Except.error ⟨400, "Analysis of type \x27" ++ atype
                ++ "\x27 is already pending or running"⟩, analyses)
        | none =>
            let created : AnalysisRec :=
              ⟨newId, videoId, atype, "pending", ""⟩
            (Except.ok created, analyses ++ [created])

/-- The Pending→Running transition of `_analyze_video_async` (`tasks.py`
lines 290–293): `analysis.status = "running"; analysis.worker_id =
task.request.id; await db.commit()` — an unconditional write with no
compare against the previous status.  The boolean records that this
execution attempt then goes on to invoke the analyzer. -/
def startAnalysis (a : AnalysisRec) (worker : String) : AnalysisRec × Bool :=
  ({ a with status := "running", workerId := worker }, true)

/-- The compare-and-transition the spec describes for `Execute(job)`
(modelled from the spec's words, for comparison with `startAnalysis`, which
embeds the code): take ownership and invoke the analyzer only if the job is
still Pending; otherwise leave the record alone and do not invoke. -/
def startAnalysisCas (a : AnalysisRec) (worker : String) :
    AnalysisRec × Bool :=
  if a.status = "pending" then
    ({ a with status := "running", workerId := worker }, true)
  else (a, false)

/-! ## C3 — no compare-and-transition guards Pending→Running -/

/-- **C3 counterexample.** A second execution attempt on a job that is
already `"running"` (owned by worker `w1`) also sets it Running, reassigns
ownership to `w2`, and invokes the analyzer — the write is unconditional,
so two overlapping attempts both own the Running phase and both invoke the
analyzer, unlike the compare-and-transition of the claim, which refuses the
second attempt. -/
theorem double_start_both_invoke :
    (startAnalysis ⟨1, 1, "metadata_extraction", "running", "w1"⟩ "w2").2
        = true
    ∧ (startAnalysis ⟨1, 1, "metadata_extraction", "running", "w1"⟩
        "w2").1.workerId = "w2"
    ∧ (startAnalysisCas ⟨1, 1, "metadata_extraction", "running", "w1"⟩
        "w2").2 = false := by
  decide

/-- **C3 amended.** The Pending→Running transition of
`_analyze_video_async` is an unconditional status write with no
compare-and-transition: every execution attempt sets the job Running, takes
worker ownership and invokes the analyzer regardless of the job's current
state, so when two workers interleave on the same job, the second attempt —
made after the first has already moved the job to Running — also owns
Running and also invokes the analyzer; exclusivity of the Running phase is
not ensured. -/
theorem double_start_no_mutual_exclusion (a : AnalysisRec) (w1 w2 : String) :
    (startAnalysis a w1).2 = true
    ∧ (startAnalysis a w1).1.status = "running"
    ∧ (startAnalysis (startAnalysis a w1).1 w2).2 = true
    ∧ (startAnalysis (startAnalysis a w1).1 w2).1.status = "running"
    ∧ (startAnalysis (startAnalysis a w1).1 w2).1.workerId = w2 := by
  exact ⟨rfl, rfl, rfl, rfl, rfl⟩

/-! ## C4 — duplicate in-flight submission is rejected with 400, not 409 -/

/-- **C4 counterexample.** Submitting an analysis of a type that is already
pending for the same video is rejected with HTTP **400** Bad Request, not
409 Conflict as the claim states. -/
theorem duplicate_submission_rejected_400 :
    (create_analysis [⟨1, 7, "completed"⟩]
        [⟨1, 1, "metadata_extraction", "pending", ""⟩]
        1 "metadata_extraction" 7 2).1
      = Except.error ⟨400, "Analysis of type \x27metadata_extraction\x27 is already pending or running"⟩ := by
  rfl

/-- **C4 amended.** Submitting an analysis job for a `(video, kind)` pair
while another job of the same pair is pending or running is rejected with
HTTP 400 Bad Request (not 409) and the analysis table is unchanged; when no
such in-flight job exists — in particular after the earlier job reached a
terminal state — the submission succeeds, appending a new pending job. -/
theorem submit_conflict_behavior (videos : List VideoRec)
    (analyses : List AnalysisRec) (videoId newId uid : Nat) (atype : String)
    (v : VideoRec)
    (hv : videos.find? (videoOwnerMatch videoId uid) = some v)
    (hc : v.uploadStatus = "completed") :
    ((∃ a, analyses.find? (inflightMatch videoId atype) = some a) →
      create_analysis videos analyses videoId atype uid newId
        = (Except.error ⟨400, "Analysis of type \x27" ++ atype
            ++ "\x27 is already pending or running"⟩, analyses))
    ∧ (analyses.find? (inflightMatch videoId atype) = none →
      create_analysis videos analyses videoId atype uid newId
        = (Except.ok ⟨newId, videoId, atype, "pending", ""⟩,
           analyses ++ [⟨newId, videoId, atype, "pending", ""⟩])) := by
  constructor
  · rintro ⟨a, ha⟩
    simp [create_analysis, hv, hc, ha]
  · intro hnone
    simp [create_analysis, hv, hc, hnone]

/-- Concrete instance of the amended C4, covering both sides: with a
pending `metadata_extraction` job on video 1, a duplicate submission is
rejected with 400 and the table is unchanged; with only a `completed` job
present, the submission succeeds and appends a new pending job. -/
theorem submit_conflict_behavior_witness :
    (([⟨1, 7, "completed"⟩] : List VideoRec).find? (videoOwnerMatch 1 7)
        = some ⟨1, 7, "completed"⟩
      ∧ (⟨1, 7, "completed"⟩ : VideoRec).uploadStatus = "completed")
    ∧ create_analysis [⟨1, 7, "completed"⟩]
        [⟨1, 1, "metadata_extraction", "pending", ""⟩]
        1 "metadata_extraction" 7 2
      = (Except.error ⟨400, "Analysis of type \x27metadata_extraction\x27 is already pending or running"⟩,
         [⟨1, 1, "metadata_extraction", "pending", ""⟩])
    ∧ create_analysis [⟨1, 7, "completed"⟩]
        [⟨1, 1, "metadata_extraction", "completed", ""⟩]
        1 "metadata_extraction" 7 2
      = (Except.ok ⟨2, 1, "metadata_extraction", "pending", ""⟩,
         [⟨1, 1, "metadata_extraction", "completed", ""⟩,
          ⟨2, 1, "metadata_extraction", "pending", ""⟩]) :=
  ⟨⟨by decide, rfl⟩,
   (submit_conflict_behavior [⟨1, 7, "completed"⟩]
       [⟨1, 1, "metadata_extraction", "pending", ""⟩] 1 2 7
       "metadata_extraction" ⟨1, 7, "completed"⟩ (by decide) rfl).1
     ⟨⟨1, 1, "metadata_extraction", "pending", ""⟩, by decide⟩,
   (submit_conflict_behavior [⟨1, 7, "completed"⟩]
       [⟨1, 1, "metadata_extraction", "completed", ""⟩] 1 2 7
       "metadata_extraction" ⟨1, 7, "completed"⟩ (by decide) rfl).2
     (by decide)⟩
